import Mathlib

/-!
Shallow embedding of the client-side image service and REST client of the
EComFront repository, together with theorems checking the natural-language
specification against it.

Conventions used throughout:
* JavaScript objects become Lean structures; `undefined`/`null`/falsy string
  or number values that the code only ever tests for truthiness are modelled
  as `Option` with `none` standing for the falsy values.
* Asynchronous calls to external services (Supabase storage, `fetch`, the
  compression library) are modelled by explicit outcome parameters: the pure
  Lean function receives what the external call would have produced.
* The `this.cache` map of `ImageService` is modelled as an association list
  threaded through the functions that read or write it.
-/

set_option autoImplicit false

namespace EComFront

/-- JS `Map<String, String>` as an association list in insertion order. -/
def Cache := List (String × String)

def cacheGet : Cache → String → Option String
  | [], _ => none
  | (k, v) :: rest, key => if k = key then some v else cacheGet rest key

/-- JS `Map.set`: replace the value in place when the key exists, else append. -/
def cacheSet : Cache → String → String → Cache
  | [], key, val => [(key, val)]
  | (k, v) :: rest, key, val =>
      if k = key then (k, val) :: rest else (k, v) :: cacheSet rest key val

/-- JS `Map.delete`: remove the entries with the given key. -/
def cacheDel (c : Cache) (key : String) : Cache :=
  c.filter (fun p => p.1 != key)

theorem cacheGet_cacheSet_self (c : Cache) (k v : String) :
    cacheGet (cacheSet c k v) k = some v := by
  induction c with
  | nil => simp [cacheSet, cacheGet]
  | cons hd tl ih =>
      by_cases h : hd.1 = k
      · simp [cacheSet, cacheGet, h]
      · simp [cacheSet, cacheGet, h, ih]

theorem cacheGet_cacheDel_self (c : Cache) (k : String) :
    cacheGet (cacheDel c k) k = none := by
  induction c with
  | nil => rfl
  | cons hd tl ih =>
      unfold cacheDel at ih ⊢
      rw [List.filter_cons]
      by_cases h : hd.1 = k
      · rw [if_neg (by simp [h])]
        exact ih
      · rw [if_pos (by simp [h])]
        simpa [cacheGet, h] using ih

/-- A browser `File` object, with the fields the image service reads. -/
structure JsFile where
  name : String
  size : Nat
  type : String
  deriving Repr, DecidableEq

/-- JS `options.x || dflt` on a numeric field: `0` and `undefined` are falsy. -/
def jsOrNat (v : Option Nat) (d : Nat) : Nat :=
  match v with
  | some n => if n = 0 then d else n
  | none => d

theorem jsOrNat_pos (v : Option Nat) (d : Nat) (hd : 0 < d) : 0 < jsOrNat v d := by
  cases v with
  | none => simpa [jsOrNat]
  | some n =>
      by_cases h : n = 0
      · simpa [jsOrNat, h]
      · simpa [jsOrNat, h] using Nat.pos_of_ne_zero h

/-- The `IMAGE_CONFIG.allowedTypes` list from `imageService.js`. -/
def allowedTypesDefault : List String :=
  ["image/jpeg", "image/png", "image/webp", "image/gif"]

/-- Outcome of the `imageCompression` library call: the compressed file, or a
thrown exception. -/
inductive CompressLib where
  | ok (f : JsFile)
  | throwEx
  deriving Repr, DecidableEq

/-- Translation of `ImageService.compressImage`.  Only the `maxSizeMB` entry of the spread
`{...IMAGE_CONFIG, ...options}` is read (default `2`); the whole body is in a
`try` whose `catch` returns the original file. -/
def compressImage (lib : CompressLib) (file : JsFile) (maxSizeMBOpt : Option Nat) : JsFile :=
  let maxSizeMB := maxSizeMBOpt.getD 2
  if file.size ≤ maxSizeMB * 1024 * 1024 then file
  else
    match lib with
    | .ok f => f
    | .throwEx => file

def sizeErrorMsg (maxSize : Nat) : String :=
  let mb := maxSize / (1024 * 1024)
  s!"File size exceeds {mb}MB limit"

def typeErrorMsg (t : String) : String :=
  s!"File type {t} is not allowed"

structure ValidationResult where
  valid : Bool
  errors : List String
  file : JsFile
  deriving Repr, DecidableEq

/-- Translation of `ImageService.validateFile`.  The config is the spread
`{maxSize, allowedTypes, ...options}`: an options field overrides the default
whenever it is present. -/
def validateFile (file : JsFile) (maxSizeOpt : Option Nat)
    (allowedTypesOpt : Option (List String)) : ValidationResult :=
  let maxSize := maxSizeOpt.getD (2 * 1024 * 1024)
  let allowedTypes := allowedTypesOpt.getD allowedTypesDefault
  let errors :=
    (if file.size > maxSize then [sizeErrorMsg maxSize] else []) ++
    (if allowedTypes.contains file.type then [] else [typeErrorMsg file.type])
  { valid := errors.isEmpty, errors := errors, file := file }

/-- The options `CreatePost.handleImageUpload` passes to `validateFile`. -/
def createPostMaxSize : Option Nat := some (5 * 1024 * 1024)

/-- The allowed-types list `CreatePost.handleImageUpload` passes. -/
def createPostAllowedTypes : Option (List String) :=
  some ["image/jpeg", "image/png", "image/gif", "image/webp"]

/-- Outcome of `supabase.storage.from(bucket).getPublicUrl(path)`:
`ret d` is a normal return where `d` is `data.publicUrl` (`none` when `data`
is null or has no `publicUrl` field); `throwEx` is a thrown exception. -/
inductive SupaGetUrl where
  | ret (d : Option String)
  | throwEx
  deriving Repr, DecidableEq

/-- Characters before the first occurrence of `c` (JS `s.split(c)[0]`). -/
def takeUntilChar (c : Char) : List Char → List Char
  | [] => []
  | x :: rest => if x = c then [] else x :: takeUntilChar c rest

/-- Characters after the first occurrence of `//` (`none` when there is no
`//`, where the JS code would fault on `undefined`). -/
def afterSlashSlash : List Char → Option (List Char)
  | [] => none
  | '/' :: '/' :: rest => some rest
  | _ :: rest => afterSlashSlash rest

/-- Characters before the next occurrence of `//`, so that composing with
`afterSlashSlash` gives JS `s.split('//')[1]`. -/
def upToSlashSlash : List Char → List Char
  | [] => []
  | '/' :: '/' :: _ => []
  | x :: rest => x :: upToSlashSlash rest

/-- JS `s.split('/').pop()`: the substring after the last `/`. -/
def lastSegmentAfterSlash (s : String) : String :=
  String.mk ((s.data.reverse.takeWhile (fun c => c != '/')).reverse)

/-- Translation of `ImageService.constructCdnUrl`:
`supabaseUrl.split('//')[1].split('.')[0]` then a template literal.
(Implemented on character lists; `String.splitOn` is extensionally the same
but does not reduce inside the kernel.) -/
def constructCdnUrl (supabaseUrl bucket storagePath : String) : String :=
  let afterScheme :=
    match afterSlashSlash supabaseUrl.data with
    | some r => upToSlashSlash r
    | none => []
  let projectRef := String.mk (takeUntilChar '.' afterScheme)
  "https://" ++ projectRef ++ ".supabase.co/storage/v1/object/public/" ++
    bucket ++ "/" ++ storagePath

theorem constructCdnUrl_ne_empty (supabaseUrl bucket storagePath : String) :
    constructCdnUrl supabaseUrl bucket storagePath ≠ "" := by
  intro h
  have hlen := congrArg String.length h
  simp only [constructCdnUrl, String.length_append] at hlen
  have h8 : ("https://").length = 8 := rfl
  have h0 : ("" : String).length = 0 := rfl
  omega

/-- The part of `ImageService.getPublicUrl` after the cache lookup misses
(or hits a falsy cached value): try the Supabase SDK, fall back to the manual
CDN URL, caching whichever URL is returned. -/
def getPublicUrlMiss (supabaseUrl bucket : String) (env : SupaGetUrl)
    (cache : Cache) (storagePath : String) : String × Cache :=
  let fb := constructCdnUrl supabaseUrl bucket storagePath
  match env with
  | .ret (some u) =>
      if u = "" then (fb, cacheSet cache storagePath fb)
      else (u, cacheSet cache storagePath u)
  | .ret none => (fb, cacheSet cache storagePath fb)
  | .throwEx => (fb, cacheSet cache storagePath fb)

/-- Translation of `ImageService.getPublicUrl`: return the cached URL when it is truthy,
else compute one and cache it.  Returns the URL and the updated cache. -/
def getPublicUrl (supabaseUrl bucket : String) (env : SupaGetUrl)
    (cache : Cache) (storagePath : String) : String × Cache :=
  match cacheGet cache storagePath with
  | some cachedUrl =>
      if cachedUrl = "" then getPublicUrlMiss supabaseUrl bucket env cache storagePath
      else (cachedUrl, cache)
  | none => getPublicUrlMiss supabaseUrl bucket env cache storagePath

theorem getPublicUrlMiss_fst_ne_empty (supabaseUrl bucket : String) (env : SupaGetUrl)
    (cache : Cache) (storagePath : String) :
    (getPublicUrlMiss supabaseUrl bucket env cache storagePath).1 ≠ "" := by
  rcases env with d | _
  · rcases d with _ | u
    · exact constructCdnUrl_ne_empty supabaseUrl bucket storagePath
    · by_cases h : u = ""
      · simpa [getPublicUrlMiss, h] using constructCdnUrl_ne_empty supabaseUrl bucket storagePath
      · simp [getPublicUrlMiss, h]
  · exact constructCdnUrl_ne_empty supabaseUrl bucket storagePath

theorem getPublicUrlMiss_cached (supabaseUrl bucket : String) (env : SupaGetUrl)
    (cache : Cache) (storagePath : String) :
    cacheGet (getPublicUrlMiss supabaseUrl bucket env cache storagePath).2 storagePath =
      some (getPublicUrlMiss supabaseUrl bucket env cache storagePath).1 := by
  rcases env with d | _
  · rcases d with _ | u
    · simpa [getPublicUrlMiss] using cacheGet_cacheSet_self cache storagePath _
    · by_cases h : u = ""
      · simpa [getPublicUrlMiss, h] using cacheGet_cacheSet_self cache storagePath _
      · simpa [getPublicUrlMiss, h] using cacheGet_cacheSet_self cache storagePath _
  · simpa [getPublicUrlMiss] using cacheGet_cacheSet_self cache storagePath _

/-- After any call the cache holds the URL that call returned. -/
theorem getPublicUrl_cached (supabaseUrl bucket : String) (env : SupaGetUrl)
    (cache : Cache) (storagePath : String) :
    cacheGet (getPublicUrl supabaseUrl bucket env cache storagePath).2 storagePath =
      some (getPublicUrl supabaseUrl bucket env cache storagePath).1 := by
  unfold getPublicUrl
  cases hc : cacheGet cache storagePath with
  | none => exact getPublicUrlMiss_cached supabaseUrl bucket env cache storagePath
  | some cachedUrl =>
      by_cases h : cachedUrl = ""
      · simpa [h] using getPublicUrlMiss_cached supabaseUrl bucket env cache storagePath
      · simpa [h] using hc

theorem getPublicUrl_fst_ne_empty (supabaseUrl bucket : String) (env : SupaGetUrl)
    (cache : Cache) (storagePath : String) :
    (getPublicUrl supabaseUrl bucket env cache storagePath).1 ≠ "" := by
  unfold getPublicUrl
  cases hc : cacheGet cache storagePath with
  | none => exact getPublicUrlMiss_fst_ne_empty supabaseUrl bucket env cache storagePath
  | some cachedUrl =>
      by_cases h : cachedUrl = ""
      · simpa [h] using getPublicUrlMiss_fst_ne_empty supabaseUrl bucket env cache storagePath
      · simp [h]

/-- A second call on the same path, with the cache produced by the first call,
returns the first call's URL and leaves the cache unchanged, whatever the
external environment of the second call is. -/
theorem getPublicUrl_idem (supabaseUrl bucket : String) (env env2 : SupaGetUrl)
    (cache : Cache) (storagePath : String) :
    getPublicUrl supabaseUrl bucket env2
        (getPublicUrl supabaseUrl bucket env cache storagePath).2 storagePath =
      ((getPublicUrl supabaseUrl bucket env cache storagePath).1,
       (getPublicUrl supabaseUrl bucket env cache storagePath).2) := by
  have hcached := getPublicUrl_cached supabaseUrl bucket env cache storagePath
  have hne := getPublicUrl_fst_ne_empty supabaseUrl bucket env cache storagePath
  conv_lhs => rw [getPublicUrl]
  rw [hcached]
  simp [hne]

/-- Outcome of `supabase.storage.from(bucket).upload(...)` in one attempt:
`ok` is a return with no error; `err e` covers both an error result (which the
code immediately throws) and a thrown exception, with `e` the error value. -/
inductive StorageUpload where
  | ok
  | err (e : String)
  deriving Repr, DecidableEq

def storageErr : StorageUpload → Option String
  | .ok => none
  | .err m => some m

/-- The external environment of one `uploadImage` attempt: the compression
library's behaviour, the generated filename (timestamp + random id), the
storage upload outcome and the SDK behaviour for `getPublicUrl`. -/
structure AttemptEnv where
  lib : CompressLib
  path : String
  storage : StorageUpload
  supa : SupaGetUrl
  deriving Repr, DecidableEq

/-- The metadata record built on a successful upload, spread into the
returned `data` together with `publicUrl` and `storagePath`. -/
structure UploadData where
  storage_path : String
  filename : String
  original_filename : String
  file_size : Nat
  mime_type : String
  image_url : String
  publicUrl : String
  storagePath : String
  deriving Repr, DecidableEq

/-- The value `uploadImage` resolves with, instrumented with an execution
trace: `delays` lists the waits performed (in ms, in order) and `tried`
counts the upload attempts actually made. -/
structure UploadRun where
  success : Bool
  data : Option UploadData
  attempt : Option Nat
  error : Option String
  attempts : Option Nat
  delays : List Nat
  tried : Nat
  deriving Repr, DecidableEq

/-- The `for (let attempt = 1; attempt <= maxRetries; attempt++)` loop of
`ImageService.uploadImage`.  `remaining` counts the attempts still allowed
(including the current one); the loop is entered with `attempt = 1` and
`remaining = maxRetries`, and `attempt + remaining = maxRetries + 1` holds
throughout.  The base case `remaining = 0` is the fall-through return after
the loop. -/
def uploadLoop (env : Nat → AttemptEnv) (supabaseUrl bucket : String)
    (file : JsFile) (maxSizeMBOpt : Option Nat) (maxRetries retryDelay : Nat) :
    (attempt remaining : Nat) → Option String → Cache → UploadRun × Cache
  | _, 0, lastError, cache =>
      ({ success := false, data := none, attempt := none,
         error := some (lastError.getD "Upload failed after multiple attempts"),
         attempts := some maxRetries, delays := [], tried := 0 }, cache)
  | attempt, remaining + 1, _lastError, cache =>
      let e := env attempt
      let compressedFile := compressImage e.lib file maxSizeMBOpt
      let storagePath := e.path
      match e.storage with
      | .ok =>
          let pu := getPublicUrl supabaseUrl bucket e.supa cache storagePath
          let d : UploadData :=
            { storage_path := storagePath,
              filename := lastSegmentAfterSlash storagePath,
              original_filename := file.name,
              file_size := compressedFile.size,
              mime_type := compressedFile.type,
              image_url := pu.1,
              publicUrl := pu.1,
              storagePath := storagePath }
          ({ success := true, data := some d, attempt := some attempt,
             error := none, attempts := none, delays := [], tried := 1 },
           cacheSet pu.2 storagePath pu.1)
      | .err msg =>
          match remaining with
          | 0 =>
              ({ success := false, data := none, attempt := none,
                 error := some msg, attempts := some maxRetries,
                 delays := [], tried := 1 }, cache)
          | r + 1 =>
              let rest := uploadLoop env supabaseUrl bucket file maxSizeMBOpt
                maxRetries retryDelay (attempt + 1) (r + 1) (some msg) cache
              ({ rest.1 with
                 delays := retryDelay :: rest.1.delays,
                 tried := rest.1.tried + 1 }, rest.2)

/-- Translation of `ImageService.uploadImage`: resolve the effective retry parameters with
JS `||` (so a passed `0` falls back to the defaults `3` and `1000`) and run
the attempt loop.  Returns the result and the updated URL cache. -/
def uploadImage (env : Nat → AttemptEnv) (supabaseUrl bucket : String)
    (file : JsFile) (maxSizeMBOpt maxRetriesOpt retryDelayOpt : Option Nat)
    (cache : Cache) : UploadRun × Cache :=
  let maxRetries := jsOrNat maxRetriesOpt 3
  let retryDelay := jsOrNat retryDelayOpt 1000
  uploadLoop env supabaseUrl bucket file maxSizeMBOpt maxRetries retryDelay
    1 maxRetries none cache

/-- Outcome of one `uploadFunction()` call inside `retryUpload`
(`supabase.js`): a result with `success: true`, a result with
`success: false` and the given `error` (with `none` for a falsy error), or a
thrown exception. -/
inductive RetryAttempt where
  | ok
  | fail (e : Option String)
  | throwEx (e : String)
  deriving Repr, DecidableEq

/-- JS `hay.includes(needle)` for a nonempty needle. -/
def jsIncludes (hay needle : String) : Bool :=
  (hay.splitOn needle).length ≥ 2

/-- The check `result.error?.includes('Invalid file') || result.error?.includes('validation')`. -/
def isValidationError : Option String → Bool
  | some s => jsIncludes s "Invalid file" || jsIncludes s "validation"
  | none => false

/-- The value `retryUpload` resolves with, instrumented with the list of
backoff waits performed (in ms, in order). -/
structure RetryRun where
  success : Bool
  error : Option String
  delays : List Nat
  deriving Repr, DecidableEq

/-- The attempt loop of `retryUpload` (`supabase.js`).  On a failed result the
loop breaks without waiting on a validation error, and otherwise sleeps
`delay * 2^(attempt-1)` — even after the final attempt; a thrown exception
always sleeps.  `remaining = 0` is the fall-through return after the loop. -/
def retryLoop (env : Nat → RetryAttempt) (delay : Nat) :
    (attempt remaining : Nat) → Option String → RetryRun
  | _, 0, lastError =>
      { success := false,
        error := some (lastError.getD "Upload failed after multiple attempts"),
        delays := [] }
  | attempt, remaining + 1, _lastError =>
      match env attempt with
      | .ok => { success := true, error := none, delays := [] }
      | .fail e =>
          if isValidationError e then
            { success := false,
              error := some (e.getD "Upload failed after multiple attempts"),
              delays := [] }
          else
            let rest := retryLoop env delay (attempt + 1) remaining e
            { rest with delays := delay * 2 ^ (attempt - 1) :: rest.delays }
      | .throwEx e =>
          let rest := retryLoop env delay (attempt + 1) remaining (some e)
          { rest with delays := delay * 2 ^ (attempt - 1) :: rest.delays }

/-- Translation of `retryUpload(uploadFunction, maxRetries = 3, delay = 1000)`. -/
def retryUpload (env : Nat → RetryAttempt) (maxRetries delay : Nat) : RetryRun :=
  retryLoop env delay 1 maxRetries none

section UploadLemmas

variable (env : Nat → AttemptEnv) (su bucket : String) (file : JsFile)
  (o : Option Nat) (M D : Nat)

theorem uploadLoop_step_ok (attempt r : Nat) (lastErr : Option String) (cache : Cache)
    (hst : (env attempt).storage = StorageUpload.ok) :
    uploadLoop env su bucket file o M D attempt (r + 1) lastErr cache =
      ({ success := true,
         data := some
           { storage_path := (env attempt).path,
             filename := lastSegmentAfterSlash (env attempt).path,
             original_filename := file.name,
             file_size := (compressImage (env attempt).lib file o).size,
             mime_type := (compressImage (env attempt).lib file o).type,
             image_url := (getPublicUrl su bucket (env attempt).supa cache (env attempt).path).1,
             publicUrl := (getPublicUrl su bucket (env attempt).supa cache (env attempt).path).1,
             storagePath := (env attempt).path },
         attempt := some attempt, error := none, attempts := none,
         delays := [], tried := 1 },
       cacheSet (getPublicUrl su bucket (env attempt).supa cache (env attempt).path).2
         (env attempt).path
         (getPublicUrl su bucket (env attempt).supa cache (env attempt).path).1) := by
  simp only [uploadLoop, hst]

theorem uploadLoop_step_err_last (attempt : Nat) (lastErr : Option String) (cache : Cache)
    (m : String) (hst : (env attempt).storage = StorageUpload.err m) :
    uploadLoop env su bucket file o M D attempt 1 lastErr cache =
      ({ success := false, data := none, attempt := none, error := some m,
         attempts := some M, delays := [], tried := 1 }, cache) := by
  simp only [uploadLoop, hst]

theorem uploadLoop_step_err_cont (attempt r : Nat) (lastErr : Option String) (cache : Cache)
    (m : String) (hst : (env attempt).storage = StorageUpload.err m) :
    uploadLoop env su bucket file o M D attempt (r + 2) lastErr cache =
      ({ (uploadLoop env su bucket file o M D (attempt + 1) (r + 1) (some m) cache).1 with
         delays := D ::
           (uploadLoop env su bucket file o M D (attempt + 1) (r + 1) (some m) cache).1.delays,
         tried :=
           (uploadLoop env su bucket file o M D (attempt + 1) (r + 1) (some m) cache).1.tried + 1 },
       (uploadLoop env su bucket file o M D (attempt + 1) (r + 1) (some m) cache).2) := by
  rw [uploadLoop.eq_def]
  dsimp only
  rw [hst]

/-- Every attempt loop run makes at most `remaining` attempts. -/
theorem uploadLoop_tried_le :
    ∀ remaining attempt lastErr cache,
      (uploadLoop env su bucket file o M D attempt remaining lastErr cache).1.tried ≤
        remaining := by
  intro remaining
  induction remaining with
  | zero => intro attempt lastErr cache; simp [uploadLoop]
  | succ r ih =>
      intro attempt lastErr cache
      cases hst : (env attempt).storage with
      | ok =>
          rw [uploadLoop_step_ok env su bucket file o M D attempt r lastErr cache hst]
          dsimp only
          omega
      | err m =>
          cases r with
          | zero =>
              rw [uploadLoop_step_err_last env su bucket file o M D attempt lastErr cache m hst]
          | succ r' =>
              rw [uploadLoop_step_err_cont env su bucket file o M D attempt r' lastErr cache m hst]
              have h := ih (attempt + 1) (some m) cache
              dsimp only
              omega

/-- Every wait performed by the attempt loop is the constant `retryDelay`. -/
theorem uploadLoop_delays_const :
    ∀ remaining attempt lastErr cache,
      (uploadLoop env su bucket file o M D attempt remaining lastErr cache).1.delays =
        List.replicate
          (uploadLoop env su bucket file o M D attempt remaining lastErr cache).1.delays.length
          D := by
  intro remaining
  induction remaining with
  | zero => intro attempt lastErr cache; simp [uploadLoop]
  | succ r ih =>
      intro attempt lastErr cache
      cases hst : (env attempt).storage with
      | ok =>
          rw [uploadLoop_step_ok env su bucket file o M D attempt r lastErr cache hst]
          simp
      | err m =>
          cases r with
          | zero =>
              rw [uploadLoop_step_err_last env su bucket file o M D attempt lastErr cache m hst]
              simp
          | succ r' =>
              rw [uploadLoop_step_err_cont env su bucket file o M D attempt r' lastErr cache m hst]
              have h := ih (attempt + 1) (some m) cache
              dsimp only
              rw [List.length_cons, List.replicate_succ]
              exact congrArg (fun l => D :: l) h

/-- When every attempt in range fails, the loop returns the failure record
with the last error, `attempts = maxRetries`, one attempt per allowed retry,
and leaves the cache untouched. -/
theorem uploadLoop_allFail :
    ∀ r attempt lastErr cache,
      (∀ j, attempt ≤ j → j < attempt + (r + 1) → (env j).storage ≠ StorageUpload.ok) →
      (uploadLoop env su bucket file o M D attempt (r + 1) lastErr cache).1.success = false ∧
      (uploadLoop env su bucket file o M D attempt (r + 1) lastErr cache).1.attempts = some M ∧
      (uploadLoop env su bucket file o M D attempt (r + 1) lastErr cache).1.error =
        storageErr ((env (attempt + r)).storage) ∧
      (uploadLoop env su bucket file o M D attempt (r + 1) lastErr cache).1.tried = r + 1 ∧
      (uploadLoop env su bucket file o M D attempt (r + 1) lastErr cache).2 = cache := by
  intro r
  induction r with
  | zero =>
      intro attempt lastErr cache hfail
      have h := hfail attempt (le_refl _) (by omega)
      cases hst : (env attempt).storage with
      | ok => exact absurd hst h
      | err m =>
          rw [uploadLoop_step_err_last env su bucket file o M D attempt lastErr cache m hst]
          simp [storageErr, hst]
  | succ r ih =>
      intro attempt lastErr cache hfail
      have h := hfail attempt (le_refl _) (by omega)
      cases hst : (env attempt).storage with
      | ok => exact absurd hst h
      | err m =>
          have ihx := ih (attempt + 1) (some m) cache
            (fun j hj1 hj2 => hfail j (by omega) (by omega))
          rw [uploadLoop_step_err_cont env su bucket file o M D attempt r lastErr cache m hst]
          have hidx : attempt + (r + 1) = attempt + 1 + r := by omega
          refine ⟨by simpa using ihx.1, by simpa using ihx.2.1, ?_, ?_, by simpa using ihx.2.2.2.2⟩
          · rw [hidx]
            simpa using ihx.2.2.1
          · have h4 := ihx.2.2.2.1
            dsimp only
            omega

/-- When attempt `k` is the first to succeed, the loop stops there with
`success: true`, the succeeding attempt number, and one attempt per try up
to `k`. -/
theorem uploadLoop_firstSuccess :
    ∀ r attempt k lastErr cache,
      attempt ≤ k → k ≤ attempt + r →
      (∀ j, attempt ≤ j → j < k → (env j).storage ≠ StorageUpload.ok) →
      (env k).storage = StorageUpload.ok →
      (uploadLoop env su bucket file o M D attempt (r + 1) lastErr cache).1.success = true ∧
      (uploadLoop env su bucket file o M D attempt (r + 1) lastErr cache).1.attempt = some k ∧
      (uploadLoop env su bucket file o M D attempt (r + 1) lastErr cache).1.tried =
        k + 1 - attempt := by
  intro r
  induction r with
  | zero =>
      intro attempt k lastErr cache h1 h2 _hprev hk
      have hak : attempt = k := by omega
      subst hak
      rw [uploadLoop_step_ok env su bucket file o M D attempt 0 lastErr cache hk]
      refine ⟨rfl, rfl, ?_⟩
      dsimp only
      omega
  | succ r ih =>
      intro attempt k lastErr cache h1 h2 hprev hk
      by_cases hak : attempt = k
      · subst hak
        rw [uploadLoop_step_ok env su bucket file o M D attempt (r + 1) lastErr cache hk]
        refine ⟨rfl, rfl, ?_⟩
        dsimp only
        omega
      · have hlt : attempt < k := lt_of_le_of_ne h1 hak
        cases hst : (env attempt).storage with
        | ok => exact absurd hst (hprev attempt (le_refl _) hlt)
        | err m =>
            have ihx := ih (attempt + 1) k (some m) cache (by omega) (by omega)
              (fun j hj1 hj2 => hprev j (by omega) hj2) hk
            rw [uploadLoop_step_err_cont env su bucket file o M D attempt r lastErr cache m hst]
            refine ⟨by simpa using ihx.1, by simpa using ihx.2.1, ?_⟩
            have h3 := ihx.2.2
            dsimp only
            omega

/-- A successful run leaves the uploaded path mapped to its public URL in
the cache. -/
theorem uploadLoop_success_cached :
    ∀ remaining attempt lastErr cache d,
      (uploadLoop env su bucket file o M D attempt remaining lastErr cache).1.success = true →
      (uploadLoop env su bucket file o M D attempt remaining lastErr cache).1.data = some d →
      cacheGet (uploadLoop env su bucket file o M D attempt remaining lastErr cache).2
        d.storagePath = some d.publicUrl := by
  intro remaining
  induction remaining with
  | zero =>
      intro attempt lastErr cache d hsucc
      simp [uploadLoop] at hsucc
  | succ r ih =>
      intro attempt lastErr cache d hsucc hdata
      cases hst : (env attempt).storage with
      | ok =>
          rw [uploadLoop_step_ok env su bucket file o M D attempt r lastErr cache hst] at hdata ⊢
          simp only [Option.some.injEq] at hdata
          subst hdata
          simpa using cacheGet_cacheSet_self
            (getPublicUrl su bucket (env attempt).supa cache (env attempt).path).2
            (env attempt).path
            (getPublicUrl su bucket (env attempt).supa cache (env attempt).path).1
      | err m =>
          cases r with
          | zero =>
              rw [uploadLoop_step_err_last env su bucket file o M D attempt lastErr cache m hst]
                at hsucc
              simp at hsucc
          | succ r' =>
              rw [uploadLoop_step_err_cont env su bucket file o M D attempt r' lastErr cache m hst]
                at hsucc hdata ⊢
              exact ih (attempt + 1) (some m) cache d (by simpa using hsucc)
                (by simpa using hdata)

end UploadLemmas

section RetryLemmas

variable (env : Nat → RetryAttempt) (D : Nat)

theorem retryLoop_step_ok (attempt r : Nat) (lastErr : Option String)
    (h : env attempt = RetryAttempt.ok) :
    retryLoop env D attempt (r + 1) lastErr =
      { success := true, error := none, delays := [] } := by
  simp only [retryLoop, h]

theorem retryLoop_step_fail_validation (attempt r : Nat) (lastErr e : Option String)
    (h : env attempt = RetryAttempt.fail e) (hv : isValidationError e = true) :
    retryLoop env D attempt (r + 1) lastErr =
      { success := false,
        error := some (e.getD "Upload failed after multiple attempts"),
        delays := [] } := by
  simp only [retryLoop, h, hv, if_true]

theorem retryLoop_step_fail_retry (attempt r : Nat) (lastErr e : Option String)
    (h : env attempt = RetryAttempt.fail e) (hv : isValidationError e = false) :
    retryLoop env D attempt (r + 1) lastErr =
      { retryLoop env D (attempt + 1) r e with
        delays := D * 2 ^ (attempt - 1) :: (retryLoop env D (attempt + 1) r e).delays } := by
  simp only [retryLoop, h, hv, if_false, Bool.false_eq_true]

theorem retryLoop_step_throw (attempt r : Nat) (lastErr : Option String) (e : String)
    (h : env attempt = RetryAttempt.throwEx e) :
    retryLoop env D attempt (r + 1) lastErr =
      { retryLoop env D (attempt + 1) r (some e) with
        delays := D * 2 ^ (attempt - 1) ::
          (retryLoop env D (attempt + 1) r (some e)).delays } := by
  simp only [retryLoop, h]

/-- The waits `retryLoop` performs are consecutive powers of two times the
base delay, starting from `2 ^ (attempt - 1)`. -/
theorem retryLoop_delays_exp :
    ∀ remaining attempt lastErr, 1 ≤ attempt →
      ∃ w, (retryLoop env D attempt remaining lastErr).delays =
        (List.range w).map (fun i => D * 2 ^ (attempt - 1 + i)) := by
  intro remaining
  induction remaining with
  | zero =>
      intro attempt lastErr _
      exact ⟨0, by simp [retryLoop]⟩
  | succ r ih =>
      intro attempt lastErr ha
      cases he : env attempt with
      | ok =>
          exact ⟨0, by rw [retryLoop_step_ok env D attempt r lastErr he]; simp⟩
      | fail e =>
          by_cases hv : isValidationError e = true
          · exact ⟨0, by rw [retryLoop_step_fail_validation env D attempt r lastErr e he hv]; simp⟩
          · have hv' : isValidationError e = false := by
              cases hb : isValidationError e
              · rfl
              · exact absurd hb hv
            obtain ⟨w, hw⟩ := ih (attempt + 1) e (by omega)
            refine ⟨w + 1, ?_⟩
            rw [retryLoop_step_fail_retry env D attempt r lastErr e he hv']
            dsimp only
            rw [hw, List.range_succ_eq_map, List.map_cons, List.map_map]
            have h0 : attempt - 1 + 0 = attempt - 1 := by omega
            rw [h0]
            refine congrArg (fun l => D * 2 ^ (attempt - 1) :: l) ?_
            refine List.map_congr_left ?_
            intro i _
            have hx : attempt + 1 - 1 + i = attempt - 1 + Nat.succ i := by omega
            simp [Function.comp, hx]
            omega
      | throwEx e =>
          obtain ⟨w, hw⟩ := ih (attempt + 1) (some e) (by omega)
          refine ⟨w + 1, ?_⟩
          rw [retryLoop_step_throw env D attempt r lastErr e he]
          dsimp only
          rw [hw, List.range_succ_eq_map, List.map_cons, List.map_map]
          have h0 : attempt - 1 + 0 = attempt - 1 := by omega
          rw [h0]
          refine congrArg (fun l => D * 2 ^ (attempt - 1) :: l) ?_
          refine List.map_congr_left ?_
          intro i _
          have hx : attempt + 1 - 1 + i = attempt - 1 + Nat.succ i := by omega
          simp [Function.comp, hx]
          omega

/-- The wait `retryUpload` performs before retrying attempt `i + 1` is
`delay * 2 ^ i`. -/
theorem retryUpload_delays_exp (maxRetries : Nat) :
    (retryUpload env maxRetries D).delays =
      (List.range (retryUpload env maxRetries D).delays.length).map
        (fun i => D * 2 ^ i) := by
  obtain ⟨w, hw⟩ := retryLoop_delays_exp env D maxRetries 1 none (le_refl 1)
  rw [retryUpload]
  simp only [Nat.sub_self, Nat.zero_add] at hw
  rw [hw]
  simp

end RetryLemmas

/-- An entry of `failedUploads` in `uploadMultipleImages`. -/
structure FailedUpload where
  file : String
  error : Option String
  attempt : Option Nat
  deriving Repr, DecidableEq

structure MultiSummary where
  total : Nat
  successful : Nat
  failed : Nat
  deriving Repr, DecidableEq

structure MultiResult where
  success : Bool
  results : List UploadRun
  successfulUploads : List (Option UploadData)
  failedUploads : List FailedUpload
  summary : MultiSummary
  deriving Repr, DecidableEq

/-- The `for` loop of `uploadMultipleImages`: upload each file in order with
`uploadImage` (threading the URL cache), collecting `results`,
`successfulUploads` (each success's `data`) and `failedUploads`.
`fenv i` is the per-attempt environment for the `i`-th file. -/
def multiLoop (fenv : Nat → Nat → AttemptEnv) (su bucket : String)
    (o1 o2 o3 : Option Nat) :
    List JsFile → Nat → Cache →
      List UploadRun × List (Option UploadData) × List FailedUpload × Cache
  | [], _, cache => ([], [], [], cache)
  | f :: rest, i, cache =>
      let r := uploadImage (fenv i) su bucket f o1 o2 o3 cache
      let t := multiLoop fenv su bucket o1 o2 o3 rest (i + 1) r.2
      (r.1 :: t.1,
       (if r.1.success then [r.1.data] else []) ++ t.2.1,
       (if r.1.success then []
        else [{ file := f.name, error := r.1.error, attempt := r.1.attempts }]) ++ t.2.2.1,
       t.2.2.2)

/-- Translation of `ImageService.uploadMultipleImages`. -/
def uploadMultipleImages (fenv : Nat → Nat → AttemptEnv) (su bucket : String)
    (o1 o2 o3 : Option Nat) (files : List JsFile) (cache : Cache) :
    MultiResult × Cache :=
  let t := multiLoop fenv su bucket o1 o2 o3 files 0 cache
  ({ success := t.2.2.1.length == 0,
     results := t.1,
     successfulUploads := t.2.1,
     failedUploads := t.2.2.1,
     summary := { total := files.length, successful := t.2.1.length,
                  failed := t.2.2.1.length } }, t.2.2.2)

/-- Result record of `ImageService.deleteImage`. -/
structure DeleteResult where
  success : Bool
  message : Option String
  error : Option String
  deriving Repr, DecidableEq

/-- Translation of `ImageService.deleteImage`: `envRemove` is the outcome of
`supabase.storage.from(bucket).remove([storagePath])` — `none` for a clean
return, `some e` when it returns an error (immediately thrown) or throws,
with `e` the error's message. -/
def deleteImage (envRemove : Option String) (cache : Cache) (storagePath : String) :
    DeleteResult × Cache :=
  match envRemove with
  | none =>
      ({ success := true, message := some "Image deleted successfully", error := none },
       cacheDel cache storagePath)
  | some e =>
      ({ success := false, message := none, error := some e }, cache)

/-- A parsed JSON response body, reduced to the two fields the client reads:
`some` means the field is present and truthy. -/
structure JsBody where
  errorField : Option String
  messageField : Option String
  deriving Repr, DecidableEq

/-- How `get` (main client) obtains its `data`: a JSON-parsed body (either
via the JSON content-type branch or a successful `JSON.parse` of the text),
or raw text whose `JSON.parse` failed. -/
inductive GetBody where
  | jsonBody (b : JsBody)
  | rawText (t : String)
  deriving Repr, DecidableEq

/-- Outcome of `fetch` plus body acquisition: `throwErr msg` when `fetch` or
the body parsing threw (`msg` is the error's truthy `message`), or a
response with its `ok` flag, status and body. -/
inductive FetchOutcome (β : Type) where
  | throwErr (msg : Option String)
  | resp (ok : Bool) (status : Nat) (body : β)
  deriving Repr, DecidableEq

/-- The `data` value as computed by the main client's `get`: in the raw-text branch the
code wraps the text as `{ error: text || "Request failed" }`. -/
def getData : GetBody → JsBody
  | .jsonBody b => b
  | .rawText t =>
      { errorField := some (if t = "" then "Request failed" else t),
        messageField := none }

/-- Outcome of `supabase.auth.getSession()` in the main client's
`getAuthToken`: a thrown exception, an error result, or a session whose
truthy `access_token` is `accessToken` (with `none` for a missing session or
falsy token). -/
inductive SessionOutcome where
  | throwEx
  | errorRes
  | ok (accessToken : Option String)
  deriving Repr, DecidableEq

/-- Translation of `getAuthToken` (main client `apiClient.js`): `null` on error or throw,
else `session?.access_token || null`. -/
def getAuthToken : SessionOutcome → Option String
  | .throwEx => none
  | .errorRes => none
  | .ok t => t

/-- The outgoing HTTP request an apiClient method hands to `fetch`. -/
structure Request where
  url : String
  method : String
  headers : List (String × String)
  body : Option String
  deriving Repr, DecidableEq

/-- Headers built by every apiClient method: content type always, plus the
bearer header exactly when the token is truthy. -/
def buildHeaders (token : Option String) : List (String × String) :=
  match token with
  | some t => [("Content-Type", "application/json"), ("Authorization", "Bearer " ++ t)]
  | none => [("Content-Type", "application/json")]

/-- The normalized record every apiClient method resolves with (`status` is
only present on the main client's `get`). -/
structure ApiResponse where
  success : Bool
  data : Option JsBody
  error : Option String
  status : Option Nat
  deriving Repr, DecidableEq

/-- The `catch` branch shared by all methods. -/
def netErrResponse (msg : Option String) : ApiResponse :=
  { success := false, data := none,
    error := some (msg.getD "Network error. Please try again later."),
    status := none }

/-- Translation of `apiClient.get` of the main client (`src/client/src/utils/apiClient.js`). -/
def apiGet (apiUrl endpoint : String) (sess : SessionOutcome)
    (f : FetchOutcome GetBody) : Request × ApiResponse :=
  let token := getAuthToken sess
  let req : Request :=
    { url := apiUrl ++ endpoint, method := "GET", headers := buildHeaders token,
      body := none }
  (req,
   match f with
   | .throwErr msg => netErrResponse msg
   | .resp ok status body =>
       let data := getData body
       { success := ok,
         data := if ok then some data else none,
         error := if ok then none
           else some (data.errorField.getD (data.messageField.getD s!"HTTP {status}")),
         status := some status })

/-- Translation of `apiClient.post` of the main client. -/
def apiPost (apiUrl endpoint payload : String) (sess : SessionOutcome)
    (f : FetchOutcome JsBody) : Request × ApiResponse :=
  let token := getAuthToken sess
  let req : Request :=
    { url := apiUrl ++ endpoint, method := "POST", headers := buildHeaders token,
      body := some payload }
  (req,
   match f with
   | .throwErr msg => netErrResponse msg
   | .resp ok _status body =>
       { success := ok,
         data := if ok then some body else none,
         error := if ok then none else body.errorField,
         status := none })

/-- Translation of `apiClient.put` of the main client. -/
def apiPut (apiUrl endpoint payload : String) (sess : SessionOutcome)
    (f : FetchOutcome JsBody) : Request × ApiResponse :=
  let token := getAuthToken sess
  let req : Request :=
    { url := apiUrl ++ endpoint, method := "PUT", headers := buildHeaders token,
      body := some payload }
  (req,
   match f with
   | .throwErr msg => netErrResponse msg
   | .resp ok _status body =>
       { success := ok,
         data := if ok then some body else none,
         error := if ok then none else body.errorField,
         status := none })

/-- Translation of `apiClient.delete` of the main client, with its
`responseData.error || "Failed to delete resource"` fallback. -/
def apiDelete (apiUrl endpoint : String) (sess : SessionOutcome)
    (f : FetchOutcome JsBody) : Request × ApiResponse :=
  let token := getAuthToken sess
  let req : Request :=
    { url := apiUrl ++ endpoint, method := "DELETE", headers := buildHeaders token,
      body := none }
  (req,
   match f with
   | .throwErr msg => netErrResponse msg
   | .resp ok _status body =>
       { success := ok,
         data := if ok then some body else none,
         error := if ok then none
           else some (body.errorField.getD "Failed to delete resource"),
         status := none })

/-- Response normalization of `get`, `post` and `put` in the ExtraFiles
client (`src/client/ExtraFiles/src/utils/apiClient.js`): the three methods
normalize identically (`data.error` with no further fallback). -/
def efNormalize (f : FetchOutcome JsBody) : ApiResponse :=
  match f with
  | .throwErr msg => netErrResponse msg
  | .resp ok _status body =>
      { success := ok,
        data := if ok then some body else none,
        error := if ok then none else body.errorField,
        status := none }

def efGet (f : FetchOutcome JsBody) : ApiResponse := efNormalize f

def efPost (f : FetchOutcome JsBody) : ApiResponse := efNormalize f

def efPut (f : FetchOutcome JsBody) : ApiResponse := efNormalize f

/-- Translation of `delete` of the ExtraFiles client, with the same
`'Failed to delete resource'` fallback as the main client. -/
def efDelete (f : FetchOutcome JsBody) : ApiResponse :=
  match f with
  | .throwErr msg => netErrResponse msg
  | .resp ok _status body =>
      { success := ok,
        data := if ok then some body else none,
        error := if ok then none
          else some (body.errorField.getD "Failed to delete resource"),
        status := none }

/-- The authenticated user as `ChatPage` reads it. -/
structure ChatUser where
  id : String
  name : String
  deriving Repr, DecidableEq

structure ChatSender where
  id : String
  username : String
  full_name : String
  avatar_url : Option String
  deriving Repr, DecidableEq

structure ChatMessage where
  id : String
  content : String
  sender_id : String
  created_at : String
  sender : ChatSender
  deriving Repr, DecidableEq

/-- The component-local state `handleSendMessage` touches. -/
structure ChatState where
  newMessage : String
  messages : List ChatMessage
  isSendingMessage : Bool
  error : Option String
  deriving Repr, DecidableEq

/-- Kinds of externally visible effects a handler could perform.  The
translation of `handleSendMessage` emits only `scroll` (for
`scrollToBottom()`); it contains no fetch call and no storage write. -/
inductive ChatEffect where
  | httpRequest
  | storageWrite
  | scroll
  deriving Repr, DecidableEq

/-- JS `String.prototype.trim()`: strip leading and trailing whitespace.
(`String.trim` from the core library is extensionally the same but is defined
by well-founded recursion and does not reduce inside the kernel, so the
embedding uses this list-based version.) -/
def jsTrim (s : String) : String :=
  String.mk (((s.data.dropWhile Char.isWhitespace).reverse.dropWhile
    Char.isWhitespace).reverse)

/-- The `mockMessage` object built in `handleSendMessage` (`id` is
`Date.now().toString()`, `created_at` is `new Date().toISOString()`). -/
def mkMockMessage (u : ChatUser) (nowId nowIso content : String) : ChatMessage :=
  { id := nowId, content := content, sender_id := u.id, created_at := nowIso,
    sender := { id := u.id, username := u.name, full_name := u.name,
                avatar_url := none } }

/-- Translation of `ChatPage.handleSendMessage`.  The guard mirrors
`if (!newMessage.trim() || !user || isSendingMessage) return;`; the body
(whose `try` block cannot throw) clears the input, appends the mock message
to local state, scrolls, and resets `isSendingMessage` in `finally`. -/
def handleSendMessage (user : Option ChatUser) (nowId nowIso : String)
    (s : ChatState) : ChatState × List ChatEffect :=
  if jsTrim s.newMessage = "" ∨ user = none ∨ s.isSendingMessage = true then (s, [])
  else
    match user with
    | none => (s, [])
    | some u =>
        let messageContent := jsTrim s.newMessage
        ({ s with
           newMessage := "",
           messages := s.messages ++ [mkMockMessage u nowId nowIso messageContent],
           isSendingMessage := false }, [ChatEffect.scroll])

theorem uploadImage_tried_le (env : Nat → AttemptEnv) (su bucket : String)
    (file : JsFile) (o1 o2 o3 : Option Nat) (cache : Cache) :
    (uploadImage env su bucket file o1 o2 o3 cache).1.tried ≤ jsOrNat o2 3 :=
  uploadLoop_tried_le env su bucket file o1 (jsOrNat o2 3) (jsOrNat o3 1000)
    (jsOrNat o2 3) 1 none cache

theorem uploadImage_firstSuccess (env : Nat → AttemptEnv) (su bucket : String)
    (file : JsFile) (o1 o2 o3 : Option Nat) (cache : Cache) (k : Nat)
    (hk1 : 1 ≤ k) (hk2 : k ≤ jsOrNat o2 3)
    (hprev : ∀ j, 1 ≤ j → j < k → (env j).storage ≠ StorageUpload.ok)
    (hk : (env k).storage = StorageUpload.ok) :
    (uploadImage env su bucket file o1 o2 o3 cache).1.success = true ∧
    (uploadImage env su bucket file o1 o2 o3 cache).1.attempt = some k ∧
    (uploadImage env su bucket file o1 o2 o3 cache).1.tried = k := by
  obtain ⟨r, hr⟩ : ∃ r, jsOrNat o2 3 = r + 1 :=
    ⟨jsOrNat o2 3 - 1, by have := jsOrNat_pos o2 3 (by omega); omega⟩
  have h := uploadLoop_firstSuccess env su bucket file o1 (jsOrNat o2 3) (jsOrNat o3 1000)
    r 1 k none cache hk1 (by omega) (fun j a b => hprev j a b) hk
  rw [← hr] at h
  refine ⟨h.1, h.2.1, ?_⟩
  have ht := h.2.2
  have hk' : k + 1 - 1 = k := by omega
  rw [hk'] at ht
  exact ht

theorem uploadImage_allFail (env : Nat → AttemptEnv) (su bucket : String)
    (file : JsFile) (o1 o2 o3 : Option Nat) (cache : Cache)
    (hfail : ∀ j, 1 ≤ j → j ≤ jsOrNat o2 3 → (env j).storage ≠ StorageUpload.ok) :
    (uploadImage env su bucket file o1 o2 o3 cache).1.success = false ∧
    (uploadImage env su bucket file o1 o2 o3 cache).1.attempts = some (jsOrNat o2 3) ∧
    (uploadImage env su bucket file o1 o2 o3 cache).1.error =
      storageErr ((env (jsOrNat o2 3)).storage) ∧
    (uploadImage env su bucket file o1 o2 o3 cache).1.tried = jsOrNat o2 3 := by
  obtain ⟨r, hr⟩ : ∃ r, jsOrNat o2 3 = r + 1 :=
    ⟨jsOrNat o2 3 - 1, by have := jsOrNat_pos o2 3 (by omega); omega⟩
  have h := uploadLoop_allFail env su bucket file o1 (jsOrNat o2 3) (jsOrNat o3 1000)
    r 1 none cache (fun j hj1 hj2 => hfail j hj1 (by omega))
  have hidx : 1 + r = jsOrNat o2 3 := by omega
  rw [hidx] at h
  rw [← hr] at h
  exact ⟨h.1, h.2.1, h.2.2.1, h.2.2.2.1⟩

theorem length_filter_add_length_filter_not {α : Type} (p : α → Bool) (l : List α) :
    (l.filter p).length + (l.filter (fun a => !p a)).length = l.length := by
  induction l with
  | nil => rfl
  | cons a l ih =>
      cases h : p a <;> simp [List.filter_cons, h] <;> omega

section MultiLemmas

variable (fenv : Nat → Nat → AttemptEnv) (su bucket : String) (o1 o2 o3 : Option Nat)

theorem multiLoop_results_length :
    ∀ files i cache,
      (multiLoop fenv su bucket o1 o2 o3 files i cache).1.length = files.length := by
  intro files
  induction files with
  | nil => intro i cache; rfl
  | cons f rest ih =>
      intro i cache
      simp only [multiLoop, List.length_cons]
      rw [ih]

theorem multiLoop_succ_eq :
    ∀ files i cache,
      (multiLoop fenv su bucket o1 o2 o3 files i cache).2.1 =
        ((multiLoop fenv su bucket o1 o2 o3 files i cache).1.filter
          (fun r => r.success)).map (fun r => r.data) := by
  intro files
  induction files with
  | nil => intro i cache; rfl
  | cons f rest ih =>
      intro i cache
      simp only [multiLoop]
      cases h : (uploadImage (fenv i) su bucket f o1 o2 o3 cache).1.success <;>
        simp [List.filter_cons, h, ih]

theorem multiLoop_failed_len :
    ∀ files i cache,
      (multiLoop fenv su bucket o1 o2 o3 files i cache).2.2.1.length =
        ((multiLoop fenv su bucket o1 o2 o3 files i cache).1.filter
          (fun r => !r.success)).length := by
  intro files
  induction files with
  | nil => intro i cache; rfl
  | cons f rest ih =>
      intro i cache
      simp only [multiLoop]
      cases h : (uploadImage (fenv i) su bucket f o1 o2 o3 cache).1.success <;>
        simp [List.filter_cons, h, ih]

theorem multiLoop_failed_files :
    ∀ files i cache,
      (multiLoop fenv su bucket o1 o2 o3 files i cache).2.2.1.map (fun fu => fu.file) =
        ((files.zip (multiLoop fenv su bucket o1 o2 o3 files i cache).1).filter
          (fun p => !p.2.success)).map (fun p => p.1.name) := by
  intro files
  induction files with
  | nil => intro i cache; rfl
  | cons f rest ih =>
      intro i cache
      simp only [multiLoop, List.zip_cons_cons]
      cases h : (uploadImage (fenv i) su bucket f o1 o2 o3 cache).1.success <;>
        simp [List.filter_cons, h, ih]

end MultiLemmas

/-- C5: `validateFile` returns `valid = true` exactly when the file's size is
at most the configured ceiling (default 2 MB; 5 MB with the options
`CreatePost` passes) and its MIME type is in the allowed-types list; it
reports one error message per violated constraint and always returns the
input file unchanged. -/
theorem C5_validateFile (file : JsFile) (maxSizeOpt : Option Nat)
    (allowedTypesOpt : Option (List String)) :
    ((validateFile file maxSizeOpt allowedTypesOpt).valid = true ↔
      (file.size ≤ maxSizeOpt.getD (2 * 1024 * 1024) ∧
       (allowedTypesOpt.getD allowedTypesDefault).contains file.type = true)) ∧
    (validateFile file maxSizeOpt allowedTypesOpt).file = file ∧
    (validateFile file maxSizeOpt allowedTypesOpt).errors.length =
      ((if file.size ≤ maxSizeOpt.getD (2 * 1024 * 1024) then 0 else 1) +
       (if (allowedTypesOpt.getD allowedTypesDefault).contains file.type = true
        then 0 else 1)) ∧
    ((validateFile file createPostMaxSize createPostAllowedTypes).valid = true ↔
      (file.size ≤ 5 * 1024 * 1024 ∧
       (["image/jpeg", "image/png", "image/gif", "image/webp"]).contains file.type
         = true)) := by
  refine ⟨?_, rfl, ?_, ?_⟩
  · by_cases h1 : file.size ≤ maxSizeOpt.getD (2 * 1024 * 1024)
    · have h1' : ¬ file.size > maxSizeOpt.getD (2 * 1024 * 1024) := by omega
      by_cases h2 : (allowedTypesOpt.getD allowedTypesDefault).contains file.type = true <;>
        simp [validateFile, h1', h2, h1]
    · have h1' : file.size > maxSizeOpt.getD (2 * 1024 * 1024) := by omega
      simp [validateFile, h1', h1]
  · by_cases h1 : file.size ≤ maxSizeOpt.getD (2 * 1024 * 1024)
    · have h1' : ¬ file.size > maxSizeOpt.getD (2 * 1024 * 1024) := by omega
      simp only [validateFile, if_neg h1', List.nil_append, if_pos h1]
      split <;> simp
    · have h1' : file.size > maxSizeOpt.getD (2 * 1024 * 1024) := by omega
      simp only [validateFile, if_pos h1', if_neg h1]
      split <;> simp [Nat.add_comm]
  · by_cases h1 : file.size ≤ 5 * 1024 * 1024
    · have h1' : ¬ file.size > (createPostMaxSize.getD (2 * 1024 * 1024)) := by
        simp only [createPostMaxSize, Option.getD_some]
        omega
      by_cases h2 : file.type ∈ ["image/jpeg", "image/png", "image/gif", "image/webp"] <;>
        simp [validateFile, createPostMaxSize, createPostAllowedTypes, h1', h2, h1]
    · have h1' : file.size > (createPostMaxSize.getD (2 * 1024 * 1024)) := by
        simp only [createPostMaxSize, Option.getD_some]
        omega
      simp [validateFile, createPostMaxSize, createPostAllowedTypes, h1', h1]

/-- C8: `compressImage` returns the input file unchanged whenever its size is
within `maxSizeMB * 1024 * 1024` bytes or the compression library throws, and
any transformed output comes from the library on an oversized file — the
function never fails. -/
theorem C8_compressImage (lib : CompressLib) (file : JsFile) (o : Option Nat) :
    (file.size ≤ o.getD 2 * 1024 * 1024 → compressImage lib file o = file) ∧
    compressImage CompressLib.throwEx file o = file ∧
    (compressImage lib file o ≠ file →
      file.size > o.getD 2 * 1024 * 1024 ∧
      lib = CompressLib.ok (compressImage lib file o)) := by
  refine ⟨fun h => by simp [compressImage, h], ?_, ?_⟩
  · by_cases h : file.size ≤ o.getD 2 * 1024 * 1024 <;> simp [compressImage, h]
  · intro hne
    by_cases h : file.size ≤ o.getD 2 * 1024 * 1024
    · exact absurd (by simp [compressImage, h]) hne
    · cases lib with
      | ok g => exact ⟨by omega, by simp [compressImage, h]⟩
      | throwEx => exact absurd (by simp [compressImage, h]) hne

/-- Witness for C8 at a concrete small file. -/
theorem C8_compressImage_witness :
    compressImage (CompressLib.ok ⟨"b.png", 5, "image/png"⟩)
      ⟨"a.png", 10, "image/png"⟩ none = ⟨"a.png", 10, "image/png"⟩ :=
  (C8_compressImage (CompressLib.ok ⟨"b.png", 5, "image/png"⟩)
    ⟨"a.png", 10, "image/png"⟩ none).1 (by decide)

/-- C10: `deleteImage` removes the path's cache entry exactly when the remote
removal succeeds; on an error it returns `success = false` with the error's
message and leaves the cache unchanged. -/
theorem C10_deleteImage (envRemove : Option String) (cache : Cache)
    (storagePath : String) :
    (envRemove = none →
      (deleteImage envRemove cache storagePath).1.success = true ∧
      (deleteImage envRemove cache storagePath).2 = cacheDel cache storagePath ∧
      cacheGet (deleteImage envRemove cache storagePath).2 storagePath = none) ∧
    (∀ e, envRemove = some e →
      (deleteImage envRemove cache storagePath).1.success = false ∧
      (deleteImage envRemove cache storagePath).1.error = some e ∧
      (deleteImage envRemove cache storagePath).2 = cache) := by
  constructor
  · rintro rfl
    exact ⟨rfl, rfl, cacheGet_cacheDel_self cache storagePath⟩
  · rintro e rfl
    exact ⟨rfl, rfl, rfl⟩

/-- Witness for C10 at a concrete cache and path. -/
theorem C10_deleteImage_witness :
    (deleteImage none ([("e1/a.png", "u")] : Cache) "e1/a.png").1.success = true ∧
    cacheGet (deleteImage none ([("e1/a.png", "u")] : Cache) "e1/a.png").2
      "e1/a.png" = none :=
  ⟨((C10_deleteImage none ([("e1/a.png", "u")] : Cache) "e1/a.png").1 rfl).1,
   ((C10_deleteImage none ([("e1/a.png", "u")] : Cache) "e1/a.png").1 rfl).2.2⟩

/-- C9: `handleSendMessage` performs no HTTP request and no persistent-storage
write; when the guard passes it only appends the locally built mock message to
component-local state and clears the input, and otherwise it is a no-op. -/
theorem C9_handleSendMessage (user : Option ChatUser) (nowId nowIso : String)
    (s : ChatState) :
    (∀ e, e ∈ (handleSendMessage user nowId nowIso s).2 →
      e ≠ ChatEffect.httpRequest ∧ e ≠ ChatEffect.storageWrite) ∧
    (∀ u, user = some u → jsTrim s.newMessage ≠ "" → s.isSendingMessage = false →
      (handleSendMessage user nowId nowIso s).1.messages =
        s.messages ++ [mkMockMessage u nowId nowIso (jsTrim s.newMessage)] ∧
      (handleSendMessage user nowId nowIso s).1.newMessage = "" ∧
      (handleSendMessage user nowId nowIso s).2 = [ChatEffect.scroll]) ∧
    (jsTrim s.newMessage = "" ∨ user = none ∨ s.isSendingMessage = true →
      handleSendMessage user nowId nowIso s = (s, [])) := by
  by_cases hg : jsTrim s.newMessage = "" ∨ user = none ∨ s.isSendingMessage = true
  · have hres : handleSendMessage user nowId nowIso s = (s, []) := by
      simp [handleSendMessage, hg]
    refine ⟨?_, ?_, fun _ => hres⟩
    · intro e he
      rw [hres] at he
      simp at he
    · intro u hu ht hs
      rcases hg with hg | hg | hg
      · exact absurd hg ht
      · rw [hu] at hg
        simp at hg
      · rw [hs] at hg
        simp at hg
  · push_neg at hg
    obtain ⟨ht, hu, hs⟩ := hg
    obtain ⟨u, rfl⟩ : ∃ u, user = some u := by
      cases user with
      | none => exact absurd rfl hu
      | some u => exact ⟨u, rfl⟩
    have hres : handleSendMessage (some u) nowId nowIso s =
        ({ s with
           newMessage := "",
           messages := s.messages ++ [mkMockMessage u nowId nowIso (jsTrim s.newMessage)],
           isSendingMessage := false }, [ChatEffect.scroll]) := by
      simp [handleSendMessage, ht, hs]
    refine ⟨?_, ?_, ?_⟩
    · intro e he
      rw [hres] at he
      simp at he
      subst he
      exact ⟨by simp, by simp⟩
    · intro u' hu' _ _
      injection hu' with huu
      subst huu
      rw [hres]
      exact ⟨rfl, rfl, rfl⟩
    · intro hcontra
      rcases hcontra with h | h | h
      · exact absurd h ht
      · simp at h
      · exact absurd h hs

/-- Witness for C9 at a concrete user and state. -/
theorem C9_handleSendMessage_witness :
    (handleSendMessage (some ⟨"u1", "Ann"⟩) "17" "2026-01-01T00:00:00Z"
        ⟨"hi", [], false, none⟩).1.messages =
      [] ++ [mkMockMessage ⟨"u1", "Ann"⟩ "17" "2026-01-01T00:00:00Z" "hi"] ∧
    (handleSendMessage (some ⟨"u1", "Ann"⟩) "17" "2026-01-01T00:00:00Z"
        ⟨"hi", [], false, none⟩).1.newMessage = "" ∧
    (handleSendMessage (some ⟨"u1", "Ann"⟩) "17" "2026-01-01T00:00:00Z"
        ⟨"hi", [], false, none⟩).2 = [ChatEffect.scroll] :=
  (C9_handleSendMessage (some ⟨"u1", "Ann"⟩) "17" "2026-01-01T00:00:00Z"
      ⟨"hi", [], false, none⟩).2.1 ⟨"u1", "Ann"⟩ rfl (by decide) rfl

/-- C2 counterexample: a `delete` response that is not ok and whose body has
no `error` field is normalized to the fallback string
`'Failed to delete resource'`, not to the body's (absent) error field. -/
theorem C2_counterexample :
    (apiDelete "http://localhost:5000" "/api/posts/1" SessionOutcome.throwEx
        (FetchOutcome.resp false 404
          { errorField := none, messageField := none })).2.error =
      some "Failed to delete resource" ∧
    (apiDelete "http://localhost:5000" "/api/posts/1" SessionOutcome.throwEx
        (FetchOutcome.resp false 404
          { errorField := none, messageField := none })).2.error ≠
      ({ errorField := none, messageField := none } : JsBody).errorField := by
  constructor
  · rfl
  · simp [apiDelete]

/-- C2 (amended): every method normalizes a response to
`success = response.ok`, `data` = parsed body when ok and null otherwise, and
`error` = null when ok and otherwise the body's error field — except that
`get` (main client) falls back to the body's `message` and then to
`HTTP <status>`, and `delete` (both clients) falls back to
`'Failed to delete resource'`; a thrown fetch or parse error yields
`success = false`, `data = null` and the thrown message or the generic
network-error string. -/
theorem C2_amended_normalization (apiUrl endpoint payload : String)
    (sess : SessionOutcome) (ok : Bool) (status : Nat) (gb : GetBody) (b : JsBody)
    (msg : Option String) :
    (apiGet apiUrl endpoint sess (FetchOutcome.resp ok status gb)).2 =
      { success := ok,
        data := if ok then some (getData gb) else none,
        error := if ok then none
          else some ((getData gb).errorField.getD
            ((getData gb).messageField.getD s!"HTTP {status}")),
        status := some status } ∧
    (apiPost apiUrl endpoint payload sess (FetchOutcome.resp ok status b)).2 =
      { success := ok,
        data := if ok then some b else none,
        error := if ok then none else b.errorField,
        status := none } ∧
    (apiPut apiUrl endpoint payload sess (FetchOutcome.resp ok status b)).2 =
      { success := ok,
        data := if ok then some b else none,
        error := if ok then none else b.errorField,
        status := none } ∧
    (apiDelete apiUrl endpoint sess (FetchOutcome.resp ok status b)).2 =
      { success := ok,
        data := if ok then some b else none,
        error := if ok then none
          else some (b.errorField.getD "Failed to delete resource"),
        status := none } ∧
    (apiGet apiUrl endpoint sess (FetchOutcome.throwErr msg)).2 = netErrResponse msg ∧
    (apiPost apiUrl endpoint payload sess (FetchOutcome.throwErr msg)).2 =
      netErrResponse msg ∧
    (apiPut apiUrl endpoint payload sess (FetchOutcome.throwErr msg)).2 =
      netErrResponse msg ∧
    (apiDelete apiUrl endpoint sess (FetchOutcome.throwErr msg)).2 =
      netErrResponse msg ∧
    efGet (FetchOutcome.resp ok status b) =
      { success := ok,
        data := if ok then some b else none,
        error := if ok then none else b.errorField,
        status := none } ∧
    efPost (FetchOutcome.resp ok status b) = efGet (FetchOutcome.resp ok status b) ∧
    efPut (FetchOutcome.resp ok status b) = efGet (FetchOutcome.resp ok status b) ∧
    efDelete (FetchOutcome.resp ok status b) =
      { success := ok,
        data := if ok then some b else none,
        error := if ok then none
          else some (b.errorField.getD "Failed to delete resource"),
        status := none } ∧
    efGet (FetchOutcome.throwErr msg) = netErrResponse msg ∧
    efDelete (FetchOutcome.throwErr msg) = netErrResponse msg :=
  ⟨rfl, rfl, rfl, rfl, rfl, rfl, rfl, rfl, rfl, rfl, rfl, rfl, rfl, rfl⟩

/-- C4: every method attaches `Authorization: Bearer <token>` exactly when
`getAuthToken` yields a token; without a token the request still goes out
with no such header, to the same URL, and the response normalization is
unaffected by the token's presence. -/
theorem C4_auth_header (apiUrl endpoint payload : String) (sess : SessionOutcome)
    (fg : FetchOutcome GetBody) (fb fp fd : FetchOutcome JsBody) :
    (∀ t, getAuthToken sess = some t →
      ("Authorization", "Bearer " ++ t) ∈ (apiGet apiUrl endpoint sess fg).1.headers ∧
      ("Authorization", "Bearer " ++ t) ∈
        (apiPost apiUrl endpoint payload sess fb).1.headers ∧
      ("Authorization", "Bearer " ++ t) ∈
        (apiPut apiUrl endpoint payload sess fp).1.headers ∧
      ("Authorization", "Bearer " ++ t) ∈
        (apiDelete apiUrl endpoint sess fd).1.headers) ∧
    (getAuthToken sess = none →
      (∀ p ∈ (apiGet apiUrl endpoint sess fg).1.headers, p.1 ≠ "Authorization") ∧
      (∀ p ∈ (apiPost apiUrl endpoint payload sess fb).1.headers,
        p.1 ≠ "Authorization") ∧
      (∀ p ∈ (apiPut apiUrl endpoint payload sess fp).1.headers,
        p.1 ≠ "Authorization") ∧
      (∀ p ∈ (apiDelete apiUrl endpoint sess fd).1.headers, p.1 ≠ "Authorization")) ∧
    (∀ sess2,
      (apiGet apiUrl endpoint sess fg).2 = (apiGet apiUrl endpoint sess2 fg).2 ∧
      (apiPost apiUrl endpoint payload sess fb).2 =
        (apiPost apiUrl endpoint payload sess2 fb).2 ∧
      (apiPut apiUrl endpoint payload sess fp).2 =
        (apiPut apiUrl endpoint payload sess2 fp).2 ∧
      (apiDelete apiUrl endpoint sess fd).2 = (apiDelete apiUrl endpoint sess2 fd).2) ∧
    (apiGet apiUrl endpoint sess fg).1.url = apiUrl ++ endpoint ∧
    (getAuthToken SessionOutcome.throwEx = none ∧
     getAuthToken SessionOutcome.errorRes = none ∧
     ∀ tOpt, getAuthToken (SessionOutcome.ok tOpt) = tOpt) := by
  refine ⟨?_, ?_, ?_, rfl, rfl, rfl, fun tOpt => rfl⟩
  · intro t ht
    refine ⟨?_, ?_, ?_, ?_⟩ <;> simp [apiGet, apiPost, apiPut, apiDelete, buildHeaders, ht]
  · intro ht
    refine ⟨?_, ?_, ?_, ?_⟩ <;>
      · intro p hp
        simp [apiGet, apiPost, apiPut, apiDelete, buildHeaders, ht] at hp
        subst hp
        decide
  · intro sess2
    exact ⟨rfl, rfl, rfl, rfl⟩

/-- Witness for C4 with a concrete session token. -/
theorem C4_auth_header_witness :
    ("Authorization", "Bearer " ++ "tok123") ∈
      (apiGet "http://localhost:5000" "/api/posts" (SessionOutcome.ok (some "tok123"))
        (FetchOutcome.resp true 200
          (GetBody.jsonBody { errorField := none, messageField := none }))).1.headers :=
  ((C4_auth_header "http://localhost:5000" "/api/posts" "x"
      (SessionOutcome.ok (some "tok123"))
      (FetchOutcome.resp true 200
        (GetBody.jsonBody { errorField := none, messageField := none }))
      (FetchOutcome.resp true 200 { errorField := none, messageField := none })
      (FetchOutcome.resp true 200 { errorField := none, messageField := none })
      (FetchOutcome.resp true 200 { errorField := none, messageField := none })).1
    "tok123" rfl).1

/-- C6: `uploadMultipleImages` produces one result per input file in order,
partitions them into `successfulUploads` and `failedUploads`, reports a
summary with `total = files.length` and `successful + failed = total`, and
succeeds overall exactly when no upload failed. -/
theorem C6_uploadMultipleImages (fenv : Nat → Nat → AttemptEnv) (su bucket : String)
    (o1 o2 o3 : Option Nat) (files : List JsFile) (cache : Cache) :
    (uploadMultipleImages fenv su bucket o1 o2 o3 files cache).1.results.length =
      files.length ∧
    ((uploadMultipleImages fenv su bucket o1 o2 o3 files cache).1.success = true ↔
      (uploadMultipleImages fenv su bucket o1 o2 o3 files cache).1.failedUploads = []) ∧
    (uploadMultipleImages fenv su bucket o1 o2 o3 files cache).1.summary.total =
      files.length ∧
    (uploadMultipleImages fenv su bucket o1 o2 o3 files cache).1.summary.successful +
      (uploadMultipleImages fenv su bucket o1 o2 o3 files cache).1.summary.failed =
      files.length ∧
    (uploadMultipleImages fenv su bucket o1 o2 o3 files cache).1.successfulUploads =
      (((uploadMultipleImages fenv su bucket o1 o2 o3 files cache).1.results.filter
        (fun r => r.success)).map (fun r => r.data)) ∧
    (uploadMultipleImages fenv su bucket o1 o2 o3 files cache).1.failedUploads.length =
      ((uploadMultipleImages fenv su bucket o1 o2 o3 files cache).1.results.filter
        (fun r => !r.success)).length ∧
    (uploadMultipleImages fenv su bucket o1 o2 o3 files cache).1.failedUploads.map
        (fun fu => fu.file) =
      ((files.zip
          (uploadMultipleImages fenv su bucket o1 o2 o3 files cache).1.results).filter
        (fun p => !p.2.success)).map (fun p => p.1.name) := by
  simp only [uploadMultipleImages]
  refine ⟨?_, ?_, ?_, ?_, ?_, ?_, ?_⟩
  · exact multiLoop_results_length fenv su bucket o1 o2 o3 files 0 cache
  · simp [List.length_eq_zero]
  · trivial
  · have h1 := multiLoop_succ_eq fenv su bucket o1 o2 o3 files 0 cache
    have h2 := multiLoop_failed_len fenv su bucket o1 o2 o3 files 0 cache
    have h3 := multiLoop_results_length fenv su bucket o1 o2 o3 files 0 cache
    have h4 := length_filter_add_length_filter_not (fun r : UploadRun => r.success)
      (multiLoop fenv su bucket o1 o2 o3 files 0 cache).1
    simp only [] at h4
    rw [h1, List.length_map, h2]
    omega
  · exact multiLoop_succ_eq fenv su bucket o1 o2 o3 files 0 cache
  · exact multiLoop_failed_len fenv su bucket o1 o2 o3 files 0 cache
  · exact multiLoop_failed_files fenv su bucket o1 o2 o3 files 0 cache

/-- C7: `getPublicUrl` stores the URL it returns in the cache, a repeated call
on the same path returns the cached URL without recomputation or cache
change, and a successful `uploadImage` leaves the uploaded path's public URL
in the cache. -/
theorem C7_getPublicUrl_cache :
    (∀ su bucket env c p,
      cacheGet (getPublicUrl su bucket env c p).2 p =
        some (getPublicUrl su bucket env c p).1) ∧
    (∀ su bucket env env2 c p,
      getPublicUrl su bucket env2 (getPublicUrl su bucket env c p).2 p =
        ((getPublicUrl su bucket env c p).1, (getPublicUrl su bucket env c p).2)) ∧
    (∀ aenv su bucket file o1 o2 o3 c d,
      (uploadImage aenv su bucket file o1 o2 o3 c).1.success = true →
      (uploadImage aenv su bucket file o1 o2 o3 c).1.data = some d →
      cacheGet (uploadImage aenv su bucket file o1 o2 o3 c).2 d.storagePath =
        some d.publicUrl) :=
  ⟨getPublicUrl_cached,
   getPublicUrl_idem,
   fun aenv su bucket file o1 o2 o3 c d hs hd =>
     uploadLoop_success_cached aenv su bucket file o1 (jsOrNat o2 3) (jsOrNat o3 1000)
       (jsOrNat o2 3) 1 none c d hs hd⟩

/-- Per-attempt environment used in the C7 witness: the first attempt
succeeds. -/
def c7Env : Nat → AttemptEnv := fun _ =>
  { lib := CompressLib.throwEx, path := "e1/a.png",
    storage := StorageUpload.ok, supa := SupaGetUrl.throwEx }

/-- Witness for C7: after a successful concrete upload the cache maps the
storage path to the public URL. -/
theorem C7_getPublicUrl_cache_witness :
    cacheGet (uploadImage c7Env "https://proj.supabase.co" "post-images"
        ⟨"a.png", 10, "image/png"⟩ none none none ([] : Cache)).2 "e1/a.png" =
      some "https://proj.supabase.co/storage/v1/object/public/post-images/e1/a.png" :=
  C7_getPublicUrl_cache.2.2 c7Env "https://proj.supabase.co" "post-images"
    ⟨"a.png", 10, "image/png"⟩ none none none ([] : Cache)
    { storage_path := "e1/a.png", filename := "a.png", original_filename := "a.png",
      file_size := 10, mime_type := "image/png",
      image_url := "https://proj.supabase.co/storage/v1/object/public/post-images/e1/a.png",
      publicUrl := "https://proj.supabase.co/storage/v1/object/public/post-images/e1/a.png",
      storagePath := "e1/a.png" }
    (by decide) (by decide)

/-- C3: `uploadImage` makes at most `maxRetries` attempts (default 3, JS `||`
semantics), returns `success: true` with the succeeding attempt number as
soon as an attempt succeeds, and after `maxRetries` consecutive failures
returns `success: false` with the last error and `attempts = maxRetries`. -/
theorem C3_uploadImage_retries (env : Nat → AttemptEnv) (su bucket : String)
    (file : JsFile) (o1 o2 o3 : Option Nat) (cache : Cache) :
    (uploadImage env su bucket file o1 o2 o3 cache).1.tried ≤ jsOrNat o2 3 ∧
    (∀ k, 1 ≤ k → k ≤ jsOrNat o2 3 →
      (∀ j, 1 ≤ j → j < k → (env j).storage ≠ StorageUpload.ok) →
      (env k).storage = StorageUpload.ok →
      (uploadImage env su bucket file o1 o2 o3 cache).1.success = true ∧
      (uploadImage env su bucket file o1 o2 o3 cache).1.attempt = some k ∧
      (uploadImage env su bucket file o1 o2 o3 cache).1.tried = k) ∧
    ((∀ j, 1 ≤ j → j ≤ jsOrNat o2 3 → (env j).storage ≠ StorageUpload.ok) →
      (uploadImage env su bucket file o1 o2 o3 cache).1.success = false ∧
      (uploadImage env su bucket file o1 o2 o3 cache).1.attempts =
        some (jsOrNat o2 3) ∧
      (uploadImage env su bucket file o1 o2 o3 cache).1.error =
        storageErr ((env (jsOrNat o2 3)).storage) ∧
      (uploadImage env su bucket file o1 o2 o3 cache).1.tried = jsOrNat o2 3) :=
  ⟨uploadImage_tried_le env su bucket file o1 o2 o3 cache,
   fun k hk1 hk2 hprev hk =>
     uploadImage_firstSuccess env su bucket file o1 o2 o3 cache k hk1 hk2 hprev hk,
   fun hfail => uploadImage_allFail env su bucket file o1 o2 o3 cache hfail⟩

/-- Per-attempt environment used in the C3 witness: every attempt fails. -/
def c3Env : Nat → AttemptEnv := fun _ =>
  { lib := CompressLib.throwEx, path := "e3/a.png",
    storage := StorageUpload.err "network down", supa := SupaGetUrl.throwEx }

/-- Witness for C3: with three failing attempts the default run gives up with
the last error and `attempts = 3`. -/
theorem C3_uploadImage_retries_witness :
    (uploadImage c3Env "https://proj.supabase.co" "post-images"
        ⟨"a.png", 10, "image/png"⟩ none none none ([] : Cache)).1.success = false ∧
    (uploadImage c3Env "https://proj.supabase.co" "post-images"
        ⟨"a.png", 10, "image/png"⟩ none none none ([] : Cache)).1.attempts = some 3 ∧
    (uploadImage c3Env "https://proj.supabase.co" "post-images"
        ⟨"a.png", 10, "image/png"⟩ none none none ([] : Cache)).1.error =
      some "network down" ∧
    (uploadImage c3Env "https://proj.supabase.co" "post-images"
        ⟨"a.png", 10, "image/png"⟩ none none none ([] : Cache)).1.tried = 3 :=
  (C3_uploadImage_retries c3Env "https://proj.supabase.co" "post-images"
      ⟨"a.png", 10, "image/png"⟩ none none none ([] : Cache)).2.2
    (fun j _ _ => by simp [c3Env])

/-- Per-attempt environment used in the C1 counterexample: attempts 1 and 2
fail, attempt 3 succeeds. -/
def c1Env : Nat → AttemptEnv := fun n =>
  if 3 ≤ n then
    { lib := CompressLib.throwEx, path := "e1/a.png",
      storage := StorageUpload.ok, supa := SupaGetUrl.throwEx }
  else
    { lib := CompressLib.throwEx, path := "e1/a.png",
      storage := StorageUpload.err "boom", supa := SupaGetUrl.throwEx }

/-- C1 counterexample: with the default configuration and two failed attempts
before a success, both waits are the base delay 1000 ms — the second is not
`1000 * 2^1`, so the backoff of `uploadImage` is not exponential in the
attempt number. -/
theorem C1_counterexample :
    (uploadImage c1Env "https://proj.supabase.co" "post-images"
        ⟨"a.png", 10, "image/png"⟩ none none none ([] : Cache)).1.delays =
      [1000, 1000] ∧
    ¬ (∀ i, i < (uploadImage c1Env "https://proj.supabase.co" "post-images"
          ⟨"a.png", 10, "image/png"⟩ none none none ([] : Cache)).1.delays.length →
        (uploadImage c1Env "https://proj.supabase.co" "post-images"
          ⟨"a.png", 10, "image/png"⟩ none none none ([] : Cache)).1.delays.getD i 0 =
          1000 * 2 ^ i) := by
  constructor
  · decide
  · decide

/-- C1 (amended): the wait before each retry of `uploadImage` is the constant
effective `retryDelay`; the exponential-backoff schedule
`delay * 2 ^ (attempt - 1)` is implemented by the separate `retryUpload`
helper in `supabase.js`. -/
theorem C1_amended_backoff (env : Nat → AttemptEnv) (su bucket : String)
    (file : JsFile) (o1 o2 o3 : Option Nat) (cache : Cache)
    (renv : Nat → RetryAttempt) (maxRetries delay : Nat) :
    (uploadImage env su bucket file o1 o2 o3 cache).1.delays =
      List.replicate (uploadImage env su bucket file o1 o2 o3 cache).1.delays.length
        (jsOrNat o3 1000) ∧
    (retryUpload renv maxRetries delay).delays =
      (List.range (retryUpload renv maxRetries delay).delays.length).map
        (fun i => delay * 2 ^ i) :=
  ⟨uploadLoop_delays_const env su bucket file o1 (jsOrNat o2 3) (jsOrNat o3 1000)
    (jsOrNat o2 3) 1 none cache,
   retryUpload_delays_exp renv delay maxRetries⟩

end EComFront
